import Mathlib

/-!
Verification of the core record-processing logic of process_xml.py
(Qualitivity XML to CSV extraction).

Shallow embedding conventions:
* XML attribute lookup (keystroke.attrib[...] / record.attrib[...]) raises a
  KeyError in Python when the attribute is absent; here attributes are Option
  values and lookup is a function into Except String, the error carrying the
  missing attribute name.  Evaluation order, including the short-circuit
  order of the boolean conditions in valid_keystroke, is preserved exactly.
* Timestamps (np.datetime64 values; the source subtracts them and converts
  the difference to integer milliseconds) are modelled as integers measured
  in milliseconds, so a subtraction of timestamps is integer subtraction.
* The pause-counts dictionary created by create_pause_counts_dict is a
  structure with one integer field per dictionary key.
* The per-record body of the loop in process_file (lines 113-187) is
  process_record; it returns the summary row and the audit rows appended for
  that record, or the name of a missing attribute.  File discovery, XML
  parsing, attribute-name normalisation and data-frame serialisation are
  glue outside the modelled core.
-/

/-- One ks element: the nine attributes read by the code.  A field is none
when the attribute is absent from the XML element.  The created timestamp is
already converted to integer milliseconds (see module comment). -/
structure Keystroke where
  origin : Option String
  system : Option String
  key : Option String
  selection : Option String
  text : Option String
  shift : Option String
  ctrl : Option String
  alt : Option String
  created : Option Int
deriving DecidableEq, Repr

/-- One Record element: the five attributes read by the code plus the list
of its ks child elements.  started and stopped are timestamps in integer
milliseconds. -/
structure Record where
  id : Option String
  segmentid : Option String
  started : Option Int
  stopped : Option Int
  activemiliseconds : Option String
  keystrokes : List Keystroke
deriving DecidableEq, Repr

/-- The dictionary returned by create_pause_counts_dict, one field per key. -/
structure PauseCounts where
  duration_300 : Int
  count_300 : Int
  duration_500 : Int
  count_500 : Int
  duration_1000 : Int
  count_1000 : Int
  total_pause_ms : Int
  total_duration : Int
deriving DecidableEq, Repr

/-- create_pause_counts_dict (source lines 34-45): every value starts at 0. -/
def create_pause_counts_dict : PauseCounts :=
  { duration_300 := 0
    count_300 := 0
    duration_500 := 0
    count_500 := 0
    duration_1000 := 0
    count_1000 := 0
    total_pause_ms := 0
    total_duration := 0 }

/-- categorize_pause (source lines 53-72): three independent cumulative
threshold tests, then the unconditional total_duration update. -/
def categorize_pause (counts : PauseCounts) (pause_ms : Int) : PauseCounts :=
  let counts :=
    if pause_ms ≥ 300 then
      { counts with duration_300 := counts.duration_300 + pause_ms
                    count_300 := counts.count_300 + 1 }
    else counts
  let counts :=
    if pause_ms ≥ 500 then
      { counts with duration_500 := counts.duration_500 + pause_ms
                    count_500 := counts.count_500 + 1 }
    else counts
  let counts :=
    if pause_ms ≥ 1000 then
      { counts with duration_1000 := counts.duration_1000 + pause_ms
                    count_1000 := counts.count_1000 + 1 }
    else counts
  { counts with total_duration := counts.total_duration + pause_ms }

/-- Python dictionary access d[name]: the value when present, a KeyError
carrying the attribute name otherwise. -/
def attrib (a : Option String) (name : String) : Except String String :=
  match a with
  | some v => Except.ok v
  | none => Except.error name

/-- Same as attrib for the timestamp-valued created attribute. -/
def attribInt (a : Option Int) (name : String) : Except String Int :=
  match a with
  | some v => Except.ok v
  | none => Except.error name

/-- The elif condition of valid_keystroke (source lines 79-82), with the
attribute accesses in Python evaluation order and short-circuiting: empty
selection, empty text, empty key and the three modifier attributes equal to
the literal string False make the keystroke invalid. -/
def valid_keystroke_elif_branch (keystroke : Keystroke) : Except String Bool := do
  let selection ← attrib keystroke.selection "selection"
  if selection.isEmpty then
    let text ← attrib keystroke.text "text"
    if text.isEmpty then
      let key ← attrib keystroke.key "key"
      if key.isEmpty then
        let shift ← attrib keystroke.shift "shift"
        if shift = "False" then
          let ctrl ← attrib keystroke.ctrl "ctrl"
          if ctrl = "False" then
            let alt ← attrib keystroke.alt "alt"
            if alt = "False" then return false else return true
          else return true
        else return true
      else return true
    else return true
  else return true

/-- valid_keystroke (source lines 75-84).  The first if tests truthiness
(string non-emptiness) of origin and system and falsiness of key, with
Python short-circuit evaluation: a falsy subterm stops further attribute
accesses of that condition and falls through to the elif. -/
def valid_keystroke (keystroke : Keystroke) : Except String Bool := do
  let origin ← attrib keystroke.origin "origin"
  if !origin.isEmpty then
    let system ← attrib keystroke.system "system"
    if !system.isEmpty then
      let key ← attrib keystroke.key "key"
      if key.isEmpty then return false
      else valid_keystroke_elif_branch keystroke
    else valid_keystroke_elif_branch keystroke
  else valid_keystroke_elif_branch keystroke

/-- One row of the audit table (all_pauses_data entries, 4 columns). -/
structure AuditRow where
  record_id : String
  segment_id : String
  pause : Option Int
  note : String
deriving DecidableEq, Repr

/-- One row of the summary table (source lines 181-184, 12 columns). -/
structure SummaryRow where
  record_id : String
  segment_id : String
  duration_300 : Int
  count_300 : Int
  duration_500 : Int
  count_500 : Int
  duration_1000 : Int
  count_1000 : Int
  keystrokes : Nat
  active_ms : String
  record_duration : Int
  total_duration : Int
deriving DecidableEq, Repr

/-- Row assembly, source lines 181-184: identifiers, the six bucket values,
the (possibly reassigned) keystroke count, the pass-through active_ms, the
record duration and the total_duration accumulator field. -/
def make_row (record_id segment_id : String) (pause_counts : PauseCounts)
    (keystrokes_count : Nat) (active_ms : String) (duration_ms : Int) : SummaryRow :=
  { record_id := record_id
    segment_id := segment_id
    duration_300 := pause_counts.duration_300
    count_300 := pause_counts.count_300
    duration_500 := pause_counts.duration_500
    count_500 := pause_counts.count_500
    duration_1000 := pause_counts.duration_1000
    count_1000 := pause_counts.count_1000
    keystrokes := keystrokes_count
    active_ms := active_ms
    record_duration := duration_ms
    total_duration := pause_counts.total_duration }

/-- The mutable state of the keystroke loop in process_file (lines 155-170):
the last milestone timestamp, the pause-counts dictionary, the valid
keystroke counter and the audit rows appended so far. -/
structure WalkSt where
  last_milestone : Int
  pause_counts : PauseCounts
  valid_keystroke_count : Nat
  audit : List AuditRow
deriving DecidableEq, Repr

/-- The keystroke loop of process_file (source lines 155-170): a valid
keystroke reads its created timestamp, classifies the gap since the last
milestone, advances the milestone and appends an empty-note audit row; an
invalid keystroke only appends an Omitted ks audit row. -/
def walk (record_id segment_id : String) :
    List Keystroke → WalkSt → Except String WalkSt
  | [], st => Except.ok st
  | ks :: rest, st => do
    let v ← valid_keystroke ks
    if v then do
      let created ← attribInt ks.created "created"
      let diff_ms := created - st.last_milestone
      walk record_id segment_id rest
        { last_milestone := created
          pause_counts := categorize_pause st.pause_counts diff_ms
          valid_keystroke_count := st.valid_keystroke_count + 1
          audit := st.audit ++ [⟨record_id, segment_id, some diff_ms, ""⟩] }
    else
      walk record_id segment_id rest
        { st with audit := st.audit ++ [⟨record_id, segment_id, none, "Omitted ks"⟩] }

/-- The body of the per-record loop of process_file (source lines 113-187)
for one record: attribute reads in source order, then the three-way case
split on the keystroke list, returning the summary row and the audit rows
appended for this record.  A missing attribute propagates as an error. -/
def process_record (record : Record) : Except String (SummaryRow × List AuditRow) := do
  let record_started_dt ← attribInt record.started "started"
  let record_ended_dt ← attribInt record.stopped "stopped"
  let duration_ms := record_ended_dt - record_started_dt
  let last_milestone := record_started_dt
  let record_id ← attrib record.id "id"
  let segment_id ← attrib record.segmentid "segmentid"
  let active_ms ← attrib record.activemiliseconds "activemiliseconds"
  let pause_counts := create_pause_counts_dict
  match record.keystrokes with
  | [] =>
    let pause_counts := categorize_pause pause_counts duration_ms
    return (make_row record_id segment_id pause_counts 0 active_ms duration_ms,
            [⟨record_id, segment_id, some duration_ms, "No ks"⟩])
  | ks :: rest => do
    let single_invalid ←
      if rest.isEmpty then do
        let v ← valid_keystroke ks
        pure (!v)
      else pure false
    if single_invalid then
      let pause_counts := categorize_pause pause_counts duration_ms
      return (make_row record_id segment_id pause_counts 0 active_ms duration_ms,
              [⟨record_id, segment_id, some duration_ms, "1 system ks omitted"⟩])
    else do
      let st ← walk record_id segment_id (ks :: rest)
        { last_milestone := last_milestone
          pause_counts := pause_counts
          valid_keystroke_count := 0
          audit := [] }
      if st.valid_keystroke_count > 0 then
        let last_pause_ms := record_ended_dt - st.last_milestone
        let pause_counts := categorize_pause st.pause_counts last_pause_ms
        return (make_row record_id segment_id pause_counts st.valid_keystroke_count
                  active_ms duration_ms,
                st.audit ++ [⟨record_id, segment_id, some last_pause_ms, ""⟩])
      else
        return (make_row record_id segment_id st.pause_counts (ks :: rest).length
                  active_ms duration_ms,
                st.audit)

/-- Did the Except computation succeed (no KeyError)? -/
def isOkB {α : Type} : Except String α → Bool
  | Except.ok _ => true
  | Except.error _ => false

/-- Boolean validity of a keystroke whose classification succeeds: true
exactly when valid_keystroke returns ok true. -/
def isValidKs (ks : Keystroke) : Bool :=
  match valid_keystroke ks with
  | Except.ok true => true
  | _ => false

/-- Number of valid keystrokes of a list. -/
def countValid (l : List Keystroke) : Nat :=
  (l.filter isValidKs).length

/-- All nine attributes of the keystroke are present. -/
def Keystroke.wf (ks : Keystroke) : Bool :=
  ks.origin.isSome && ks.system.isSome && ks.key.isSome && ks.selection.isSome &&
  ks.text.isSome && ks.shift.isSome && ks.ctrl.isSome && ks.alt.isSome &&
  ks.created.isSome

/-- All five record attributes and all keystroke attributes are present. -/
def Record.wf (r : Record) : Bool :=
  r.id.isSome && r.segmentid.isSome && r.started.isSome && r.stopped.isSome &&
  r.activemiliseconds.isSome && r.keystrokes.all Keystroke.wf

/-- Pure form of the keystroke loop, used to reason about walk on inputs
whose attribute reads all succeed. -/
def walkP (record_id segment_id : String) :
    List Keystroke → WalkSt → WalkSt
  | [], st => st
  | ks :: rest, st =>
    if isValidKs ks then
      let created := ks.created.getD 0
      let diff_ms := created - st.last_milestone
      walkP record_id segment_id rest
        { last_milestone := created
          pause_counts := categorize_pause st.pause_counts diff_ms
          valid_keystroke_count := st.valid_keystroke_count + 1
          audit := st.audit ++ [⟨record_id, segment_id, some diff_ms, ""⟩] }
    else
      walkP record_id segment_id rest
        { st with audit := st.audit ++ [⟨record_id, segment_id, none, "Omitted ks"⟩] }

/-- Pure form of the per-record processing on records whose attribute reads
all succeed; proved equal to process_record on well-formed records below. -/
def process_pure (record_id segment_id : String) (t0 t1 : Int) (active_ms : String)
    (keystrokes : List Keystroke) : SummaryRow × List AuditRow :=
  let duration_ms := t1 - t0
  match keystrokes with
  | [] =>
    (make_row record_id segment_id (categorize_pause create_pause_counts_dict duration_ms)
        0 active_ms duration_ms,
     [⟨record_id, segment_id, some duration_ms, "No ks"⟩])
  | ks :: rest =>
    if rest.isEmpty && !isValidKs ks then
      (make_row record_id segment_id (categorize_pause create_pause_counts_dict duration_ms)
          0 active_ms duration_ms,
       [⟨record_id, segment_id, some duration_ms, "1 system ks omitted"⟩])
    else
      let st := walkP record_id segment_id (ks :: rest)
        { last_milestone := t0
          pause_counts := create_pause_counts_dict
          valid_keystroke_count := 0
          audit := [] }
      if st.valid_keystroke_count > 0 then
        let last_pause_ms := t1 - st.last_milestone
        (make_row record_id segment_id (categorize_pause st.pause_counts last_pause_ms)
            st.valid_keystroke_count active_ms duration_ms,
         st.audit ++ [⟨record_id, segment_id, some last_pause_ms, ""⟩])
      else
        (make_row record_id segment_id st.pause_counts (ks :: rest).length
            active_ms duration_ms,
         st.audit)

lemma categorize_total_duration (c : PauseCounts) (g : Int) :
    (categorize_pause c g).total_duration = c.total_duration + g := by
  unfold categorize_pause
  split <;> split <;> split <;> rfl

lemma categorize_total_pause_ms (c : PauseCounts) (g : Int) :
    (categorize_pause c g).total_pause_ms = c.total_pause_ms := by
  unfold categorize_pause
  split <;> split <;> split <;> rfl

lemma isValidKs_of_eq {ks : Keystroke} {b : Bool}
    (h : valid_keystroke ks = Except.ok b) : isValidKs ks = b := by
  cases b <;> simp [isValidKs, h]

lemma valid_keystroke_elif_branch_ok (ks : Keystroke)
    (hse : ks.selection.isSome) (ht : ks.text.isSome) (hk : ks.key.isSome)
    (hsh : ks.shift.isSome) (hc : ks.ctrl.isSome) (ha : ks.alt.isSome) :
    ∃ b, valid_keystroke_elif_branch ks = Except.ok b := by
  obtain ⟨se, hse⟩ := Option.isSome_iff_exists.mp hse
  obtain ⟨t, ht⟩ := Option.isSome_iff_exists.mp ht
  obtain ⟨k, hk⟩ := Option.isSome_iff_exists.mp hk
  obtain ⟨sh, hsh⟩ := Option.isSome_iff_exists.mp hsh
  obtain ⟨c, hc⟩ := Option.isSome_iff_exists.mp hc
  obtain ⟨a, ha⟩ := Option.isSome_iff_exists.mp ha
  simp only [valid_keystroke_elif_branch, hse, ht, hk, hsh, hc, ha, attrib]
  by_cases h1 : se.isEmpty <;> by_cases h2 : t.isEmpty <;> by_cases h3 : k.isEmpty <;>
    by_cases h4 : sh = "False" <;> by_cases h5 : c = "False" <;> by_cases h6 : a = "False" <;>
    simp [h1, h2, h3, h4, h5, h6, Bind.bind, Except.bind, pure, Except.pure]

lemma valid_keystroke_ok (ks : Keystroke) (h : ks.wf = true) :
    valid_keystroke ks = Except.ok (isValidKs ks) := by
  have hwf := h
  unfold Keystroke.wf at hwf
  simp only [Bool.and_eq_true] at hwf
  obtain ⟨⟨⟨⟨⟨⟨⟨⟨ho, hs⟩, hk⟩, hse⟩, ht⟩, hsh⟩, hc⟩, ha⟩, hcr⟩ := hwf
  obtain ⟨belif, helif⟩ :=
    valid_keystroke_elif_branch_ok ks hse ht hk hsh hc ha
  obtain ⟨o, ho⟩ := Option.isSome_iff_exists.mp ho
  obtain ⟨s, hs⟩ := Option.isSome_iff_exists.mp hs
  obtain ⟨k, hk⟩ := Option.isSome_iff_exists.mp hk
  have hres : ∃ b, valid_keystroke ks = Except.ok b := by
    simp only [valid_keystroke, ho, hs, hk, attrib]
    by_cases h1 : o.isEmpty <;> by_cases h2 : s.isEmpty <;> by_cases h3 : k.isEmpty <;>
      simp [h1, h2, h3, Bind.bind, Except.bind, pure, Except.pure, helif]
  obtain ⟨b, hb⟩ := hres
  rw [hb, isValidKs_of_eq hb]

lemma countValid_nil : countValid [] = 0 := rfl

lemma countValid_cons (k : Keystroke) (rest : List Keystroke) :
    countValid (k :: rest) = (if isValidKs k then 1 else 0) + countValid rest := by
  simp only [countValid, List.filter_cons]
  split <;> simp [Nat.add_comm]

lemma walk_eq_walkP (rid sid : String) (ks : List Keystroke)
    (h : ∀ k ∈ ks, k.wf = true) (st : WalkSt) :
    walk rid sid ks st = Except.ok (walkP rid sid ks st) := by
  induction ks generalizing st with
  | nil => rfl
  | cons k rest ih =>
    have hk : k.wf = true := h k (List.mem_cons_self k rest)
    have hrest : ∀ k ∈ rest, k.wf = true := fun x hx => h x (List.mem_cons_of_mem k hx)
    have hv := valid_keystroke_ok k hk
    have hcr : k.created.isSome := by
      unfold Keystroke.wf at hk
      simp only [Bool.and_eq_true] at hk
      exact hk.2
    obtain ⟨c, hc⟩ := Option.isSome_iff_exists.mp hcr
    simp only [walk, walkP, hv, hc, attribInt, Bind.bind, Except.bind, Option.getD_some]
    cases hval : isValidKs k with
    | true => simp [hval]; exact ih hrest _
    | false => simp [hval]; exact ih hrest _

lemma walkP_audit_length (rid sid : String) (ks : List Keystroke) (st : WalkSt) :
    (walkP rid sid ks st).audit.length = st.audit.length + ks.length := by
  induction ks generalizing st with
  | nil => rfl
  | cons k rest ih =>
    simp only [walkP]
    split <;> simp [ih] <;> omega

lemma walkP_valid_count (rid sid : String) (ks : List Keystroke) (st : WalkSt) :
    (walkP rid sid ks st).valid_keystroke_count =
      st.valid_keystroke_count + countValid ks := by
  induction ks generalizing st with
  | nil => simp [walkP, countValid_nil]
  | cons k rest ih =>
    simp only [walkP]
    rw [countValid_cons]
    split <;> rename_i hval
    · simp [hval, ih]
      omega
    · simp [hval, ih]

lemma walkP_total_duration (rid sid : String) (ks : List Keystroke) (st : WalkSt) :
    (walkP rid sid ks st).pause_counts.total_duration =
      st.pause_counts.total_duration +
        ((walkP rid sid ks st).last_milestone - st.last_milestone) := by
  induction ks generalizing st with
  | nil => simp [walkP]
  | cons k rest ih =>
    simp only [walkP]
    split
    · rw [ih]
      simp [categorize_total_duration]
      ring
    · rw [ih]

lemma walkP_total_pause_ms (rid sid : String) (ks : List Keystroke) (st : WalkSt) :
    (walkP rid sid ks st).pause_counts.total_pause_ms =
      st.pause_counts.total_pause_ms := by
  induction ks generalizing st with
  | nil => rfl
  | cons k rest ih =>
    simp only [walkP]
    split
    · rw [ih]; simp [categorize_total_pause_ms]
    · rw [ih]

lemma walkP_all_invalid (rid sid : String) (ks : List Keystroke) (st : WalkSt)
    (h : countValid ks = 0) :
    walkP rid sid ks st =
      { st with audit :=
          st.audit ++ ks.map (fun _ => ⟨rid, sid, none, "Omitted ks"⟩) } := by
  induction ks generalizing st with
  | nil => simp [walkP]
  | cons k rest ih =>
    rw [countValid_cons] at h
    have hval : isValidKs k = false := by
      by_contra hc
      simp only [Bool.not_eq_false] at hc
      simp [hc] at h
    have hrest : countValid rest = 0 := by
      simp [hval] at h; exact h
    simp only [walkP, hval, Bool.false_eq_true, if_false]
    rw [ih _ hrest]
    simp

lemma process_record_wf (rid sid am : String) (t0 t1 : Int) (ks : List Keystroke)
    (h : ∀ k ∈ ks, k.wf = true) :
    process_record ⟨some rid, some sid, some t0, some t1, some am, ks⟩ =
      Except.ok (process_pure rid sid t0 t1 am ks) := by
  cases ks with
  | nil => rfl
  | cons k rest =>
    have hk := h k (List.mem_cons_self k rest)
    have hv := valid_keystroke_ok k hk
    have hwalk := walk_eq_walkP rid sid (k :: rest) h
      ⟨t0, create_pause_counts_dict, 0, []⟩
    simp only [process_record, process_pure, attrib, attribInt, Bind.bind, Except.bind]
    cases hre : rest.isEmpty with
    | true =>
      simp only [hre, if_true, hv, Except.bind]
      cases hval : isValidKs k with
      | true =>
        simp only [hval, Bool.not_true, Bool.and_false, Bool.false_eq_true, if_false,
          Bool.true_eq_false]
        rw [hwalk]
        simp [Except.bind, pure, Except.pure]
        split <;> rfl
      | false =>
        simp [hval, pure, Except.pure]
    | false =>
      simp only [hre, Bool.false_eq_true, if_false, Bool.false_and, pure, Except.pure,
        Except.bind]
      rw [hwalk]
      simp [Except.bind, pure, Except.pure]
      split <;> rfl

lemma valid_keystroke_elif_branch_eval (o s : Option String) (k se t sh c a : String)
    (cr : Option Int) :
    valid_keystroke_elif_branch ⟨o, s, some k, some se, some t, some sh, some c, some a, cr⟩ =
      Except.ok (!(se.isEmpty && t.isEmpty && k.isEmpty &&
        (sh = "False" : Bool) && (c = "False" : Bool) && (a = "False" : Bool))) := by
  simp only [valid_keystroke_elif_branch, attrib, Bind.bind, Except.bind]
  by_cases h1 : se.isEmpty <;> by_cases h2 : t.isEmpty <;> by_cases h3 : k.isEmpty <;>
    by_cases h4 : sh = "False" <;> by_cases h5 : c = "False" <;> by_cases h6 : a = "False" <;>
    simp [h1, h2, h3, h4, h5, h6, pure, Except.pure]

lemma valid_keystroke_eval (o s k se t sh c a : String) (cr : Option Int) :
    valid_keystroke ⟨some o, some s, some k, some se, some t, some sh, some c, some a, cr⟩ =
      Except.ok (if !o.isEmpty && !s.isEmpty && k.isEmpty then false
        else !(se.isEmpty && t.isEmpty && k.isEmpty &&
          (sh = "False" : Bool) && (c = "False" : Bool) && (a = "False" : Bool))) := by
  simp only [valid_keystroke, attrib, Bind.bind, Except.bind]
  by_cases h1 : o.isEmpty <;> by_cases h2 : s.isEmpty <;> by_cases h3 : k.isEmpty <;>
    simp [h1, h2, h3, pure, Except.pure, valid_keystroke_elif_branch_eval]

/-- Claim C3: categorize_pause is cumulative for every accumulator state and
every gap g, negative gaps included and unclamped: g at or above 1000 updates
all three buckets, g in 500 to 999 only the 300 and 500 buckets, g in 300 to
499 only the 300 bucket, g below 300 no bucket, and total_duration always
grows by exactly g. -/
theorem C3_cumulative_buckets (c : PauseCounts) (g : Int) :
    (1000 ≤ g →
      categorize_pause c g =
        { c with duration_300 := c.duration_300 + g, count_300 := c.count_300 + 1,
                 duration_500 := c.duration_500 + g, count_500 := c.count_500 + 1,
                 duration_1000 := c.duration_1000 + g, count_1000 := c.count_1000 + 1,
                 total_duration := c.total_duration + g }) ∧
    (500 ≤ g → g < 1000 →
      categorize_pause c g =
        { c with duration_300 := c.duration_300 + g, count_300 := c.count_300 + 1,
                 duration_500 := c.duration_500 + g, count_500 := c.count_500 + 1,
                 total_duration := c.total_duration + g }) ∧
    (300 ≤ g → g < 500 →
      categorize_pause c g =
        { c with duration_300 := c.duration_300 + g, count_300 := c.count_300 + 1,
                 total_duration := c.total_duration + g }) ∧
    (g < 300 →
      categorize_pause c g = { c with total_duration := c.total_duration + g }) := by
  refine ⟨?_, ?_, ?_, ?_⟩
  · intro h
    simp only [categorize_pause]
    rw [if_pos (by omega : g ≥ 300), if_pos (by omega : g ≥ 500), if_pos (by omega : g ≥ 1000)]
  · intro h1 h2
    simp only [categorize_pause]
    rw [if_pos (by omega : g ≥ 300), if_pos (by omega : g ≥ 500),
      if_neg (by omega : ¬ g ≥ 1000)]
  · intro h1 h2
    simp only [categorize_pause]
    rw [if_pos (by omega : g ≥ 300), if_neg (by omega : ¬ g ≥ 500),
      if_neg (by omega : ¬ g ≥ 1000)]
  · intro h
    simp only [categorize_pause]
    rw [if_neg (by omega : ¬ g ≥ 300), if_neg (by omega : ¬ g ≥ 500),
      if_neg (by omega : ¬ g ≥ 1000)]

theorem C3_cumulative_buckets_witness :
    categorize_pause create_pause_counts_dict 1200 = ⟨1200, 1, 1200, 1, 1200, 1, 0, 1200⟩ ∧
    categorize_pause create_pause_counts_dict 700 = ⟨700, 1, 700, 1, 0, 0, 0, 700⟩ ∧
    categorize_pause create_pause_counts_dict 400 = ⟨400, 1, 0, 0, 0, 0, 0, 400⟩ ∧
    categorize_pause create_pause_counts_dict (-50) = ⟨0, 0, 0, 0, 0, 0, 0, -50⟩ :=
  ⟨(C3_cumulative_buckets create_pause_counts_dict 1200).1 (by decide),
   (C3_cumulative_buckets create_pause_counts_dict 700).2.1 (by decide) (by decide),
   (C3_cumulative_buckets create_pause_counts_dict 400).2.2.1 (by decide) (by decide),
   (C3_cumulative_buckets create_pause_counts_dict (-50)).2.2.2 (by decide)⟩

/-- Claim C5: valid_keystroke classifies as invalid every event with
non-empty origin, truthy (non-empty) system attribute and empty key, and
every event with empty selection, empty text, empty key and shift, ctrl and
alt all equal to the string False; every event with a non-empty key is
classified valid. -/
theorem C5_filter_correctness (o s k se t sh c a : String) (cr : Option Int) :
    (o ≠ "" → s ≠ "" → k = "" →
      valid_keystroke ⟨some o, some s, some k, some se, some t, some sh, some c, some a, cr⟩ =
        Except.ok false) ∧
    (se = "" → t = "" → k = "" → sh = "False" → c = "False" → a = "False" →
      valid_keystroke ⟨some o, some s, some k, some se, some t, some sh, some c, some a, cr⟩ =
        Except.ok false) ∧
    (k ≠ "" →
      valid_keystroke ⟨some o, some s, some k, some se, some t, some sh, some c, some a, cr⟩ =
        Except.ok true) := by
  refine ⟨?_, ?_, ?_⟩
  · intro ho hs hk
    rw [valid_keystroke_eval]
    simp [String.isEmpty_iff, ho, hs, hk]
  · intro h1 h2 h3 h4 h5 h6
    rw [valid_keystroke_eval]
    simp [String.isEmpty_iff, h1, h2, h3, h4, h5, h6]
  · intro hk
    have hk2 : k.isEmpty = false := by
      cases h : k.isEmpty
      · rfl
      · exact absurd ((String.isEmpty_iff k).mp h) hk
    rw [valid_keystroke_eval]
    simp [hk2]

theorem C5_filter_correctness_witness :
    valid_keystroke ⟨some "x", some "True", some "", some "sel", some "txt", some "True",
        some "True", some "True", some 0⟩ = Except.ok false ∧
    valid_keystroke ⟨some "", some "", some "", some "", some "", some "False",
        some "False", some "False", none⟩ = Except.ok false ∧
    valid_keystroke ⟨some "", some "", some "a", some "", some "", some "False",
        some "False", some "False", some 5⟩ = Except.ok true :=
  ⟨(C5_filter_correctness "x" "True" "" "sel" "txt" "True" "True" "True"
      (some 0)).1 (by decide) (by decide) rfl,
   (C5_filter_correctness "" "" "" "" "" "False" "False" "False"
      none).2.1 rfl rfl rfl rfl rfl rfl,
   (C5_filter_correctness "" "" "a" "" "" "False" "False" "False"
      (some 5)).2.2 (by decide)⟩

/-- Claim C10: in the first invalidity condition of valid_keystroke the
system attribute is tested only for string non-emptiness, never for its
textual value: any event with non-empty origin, any non-empty system string
(the literal string False included) and empty key is classified invalid. -/
theorem C10_system_tested_for_truthiness (o s se t sh c a : String) (cr : Option Int)
    (ho : o ≠ "") (hs : s ≠ "") :
    valid_keystroke ⟨some o, some s, some "", some se, some t, some sh, some c, some a, cr⟩ =
      Except.ok false := by
  rw [valid_keystroke_eval]
  simp [String.isEmpty_iff, ho, hs]

theorem C10_system_tested_for_truthiness_witness :
    valid_keystroke ⟨some "x", some "False", some "", some "sel", some "txt", some "True",
        some "True", some "True", none⟩ = Except.ok false :=
  C10_system_tested_for_truthiness "x" "False" "sel" "txt" "True" "True" "True" none
    (by decide) (by decide)

/-- The ordering invariant of the accumulator: the cumulative buckets are
nested, everything is non-negative and total_duration dominates the widest
bucket sum. -/
def pauseCountsInv (c : PauseCounts) : Prop :=
  c.count_300 ≥ c.count_500 ∧ c.count_500 ≥ c.count_1000 ∧ c.count_1000 ≥ 0 ∧
  c.duration_300 ≥ c.duration_500 ∧ c.duration_500 ≥ c.duration_1000 ∧
  c.duration_1000 ≥ 0 ∧ c.total_duration ≥ c.duration_300

lemma pauseCountsInv_step (c : PauseCounts) (g : Int)
    (hc : pauseCountsInv c) (hg : 0 ≤ g) : pauseCountsInv (categorize_pause c g) := by
  unfold pauseCountsInv at *
  unfold categorize_pause
  by_cases h1 : g ≥ 300 <;> by_cases h2 : g ≥ 500 <;> by_cases h3 : g ≥ 1000 <;>
    simp [h1, h2, h3] <;> omega

lemma pauseCountsInv_foldl (gaps : List Int) (c : PauseCounts)
    (hc : pauseCountsInv c) (h : ∀ g ∈ gaps, 0 ≤ g) :
    pauseCountsInv (gaps.foldl categorize_pause c) := by
  induction gaps generalizing c with
  | nil => exact hc
  | cons g rest ih =>
    exact ih _ (pauseCountsInv_step c g hc (h g (List.mem_cons_self g rest)))
      (fun x hx => h x (List.mem_cons_of_mem g hx))

/-- Claim C8: from a freshly created accumulator, any sequence of
categorize_pause calls with non-negative gaps preserves the nesting
invariant: count_300 at least count_500 at least count_1000 at least 0, the
same for the three duration sums, and total_duration at least
duration_300. -/
theorem C8_bucket_invariant (gaps : List Int) (h : ∀ g ∈ gaps, 0 ≤ g) :
    pauseCountsInv (gaps.foldl categorize_pause create_pause_counts_dict) :=
  pauseCountsInv_foldl gaps create_pause_counts_dict
    (by unfold pauseCountsInv create_pause_counts_dict; norm_num) h

theorem C8_bucket_invariant_witness :
    pauseCountsInv (List.foldl categorize_pause create_pause_counts_dict [350, 1200]) :=
  C8_bucket_invariant [350, 1200] (by decide)

lemma total_pause_ms_foldl (gaps : List Int) (c : PauseCounts) :
    (gaps.foldl categorize_pause c).total_pause_ms = c.total_pause_ms := by
  induction gaps generalizing c with
  | nil => rfl
  | cons g rest ih => rw [List.foldl_cons, ih, categorize_total_pause_ms]

/-- Claim C9: the total_pause_ms field is initialised to 0 and no operation
of the core changes it: categorize_pause leaves it untouched, hence any
sequence of classifier calls from a fresh accumulator leaves it 0, and the
keystroke walk leaves it untouched as well; the final Total duration column
of the summary row built by make_row is exactly the total_duration
accumulator field, and make_row is the only consumer of the accumulator. -/
theorem C9_total_pause_ms_frame :
    create_pause_counts_dict.total_pause_ms = 0 ∧
    (∀ (c : PauseCounts) (g : Int),
      (categorize_pause c g).total_pause_ms = c.total_pause_ms) ∧
    (∀ gaps : List Int,
      (gaps.foldl categorize_pause create_pause_counts_dict).total_pause_ms = 0) ∧
    (∀ (rid sid : String) (ks : List Keystroke) (st : WalkSt),
      (walkP rid sid ks st).pause_counts.total_pause_ms =
        st.pause_counts.total_pause_ms) ∧
    (∀ (rid sid : String) (pc : PauseCounts) (kc : Nat) (am : String) (dm : Int),
      (make_row rid sid pc kc am dm).total_duration = pc.total_duration) :=
  ⟨rfl, categorize_total_pause_ms,
   fun gaps => total_pause_ms_foldl gaps create_pause_counts_dict,
   walkP_total_pause_ms, fun _ _ _ _ _ _ => rfl⟩

/-- Claim C6, Scenario B: a record starting at any T0, stopping at T0+900ms,
with exactly one valid keystroke created at T0+400ms, produces two
classified gaps of 400ms and 500ms and a summary row with duration_300=900,
count_300=2, duration_500=500, count_500=1, duration_1000=0, count_1000=0,
Keystrokes=1, record and total duration 900, plus exactly two audit rows
with empty notes. -/
theorem C6_scenario_b (rid sid am : String) (t0 : Int) :
    process_record ⟨some rid, some sid, some t0, some (t0 + 900), some am,
      [⟨some "", some "", some "a", some "", some "", some "False", some "False",
        some "False", some (t0 + 400)⟩]⟩ =
      Except.ok
        (⟨rid, sid, 900, 2, 500, 1, 0, 0, 1, am, 900, 900⟩,
         [⟨rid, sid, some 400, ""⟩, ⟨rid, sid, some 500, ""⟩]) := by
  rw [process_record_wf rid sid am t0 (t0 + 900)
    [⟨some "", some "", some "a", some "", some "", some "False", some "False",
      some "False", some (t0 + 400)⟩]
    (by intro k hk; rw [List.mem_singleton] at hk; subst hk; rfl)]
  have hval : isValidKs ⟨some "", some "", some "a", some "", some "", some "False",
      some "False", some "False", some (t0 + 400)⟩ = true := rfl
  have h1 : t0 + 400 - t0 = 400 := by ring
  have h2 : t0 + 900 - (t0 + 400) = 500 := by ring
  have h3 : t0 + 900 - t0 = 900 := by ring
  simp only [process_pure, walkP, hval, List.isEmpty_cons, Bool.not_true, Bool.false_and,
    Bool.false_eq_true, if_false, if_true, Option.getD_some, List.isEmpty_nil,
    Bool.and_false, h1, h2, h3]
  norm_num
  rfl

/-- The summary row of a successfully processed record, none on error. -/
def summary_of (r : Record) : Option SummaryRow :=
  (process_record r).toOption.map Prod.fst

/-- An invalid keystroke: non-empty origin, non-empty system, empty key. -/
def invalid_ks : Keystroke :=
  ⟨some "o", some "sys", some "", some "", some "", some "False", some "False",
   some "False", some 40⟩

/-- A 100ms record with two keystrokes, both invalid. -/
def two_invalid_record : Record :=
  ⟨some "r1", some "s1", some 0, some 100, some "5", [invalid_ks, invalid_ks]⟩

/-- Claim C1 counterexample: a 100ms record whose two keystrokes are both
invalid completes processing with total_duration 0, not stop minus start,
which here is 100. -/
theorem C1_counterexample :
    two_invalid_record.started = some 0 ∧
    two_invalid_record.stopped = some 100 ∧
    (summary_of two_invalid_record).map SummaryRow.total_duration = some 0 ∧
    some (0 : Int) ≠ some (100 - 0 : Int) := by decide

/-- Claim C1 (amended): for every well-formed record that has at most one
keystroke or at least one valid keystroke, the total_duration column of the
summary row equals stop minus start in milliseconds; in the remaining case
(more than one keystroke, none valid) total_duration is 0. -/
theorem C1_duration_conservation (rid sid am : String) (t0 t1 : Int) (ks : List Keystroke)
    (hwf : ∀ k ∈ ks, k.wf = true) :
    (ks.length ≤ 1 ∨ 0 < countValid ks →
      ∀ row audits,
        process_record ⟨some rid, some sid, some t0, some t1, some am, ks⟩ =
          Except.ok (row, audits) →
        row.total_duration = t1 - t0) ∧
    (1 < ks.length → countValid ks = 0 →
      ∀ row audits,
        process_record ⟨some rid, some sid, some t0, some t1, some am, ks⟩ =
          Except.ok (row, audits) →
        row.total_duration = 0) := by
  constructor
  · intro hcase row audits heq
    rw [process_record_wf rid sid am t0 t1 ks hwf] at heq
    injection heq with h
    rw [Prod.ext_iff] at h
    have h1 : (process_pure rid sid t0 t1 am ks).1 = row := h.1
    rw [← h1]
    cases ks with
    | nil =>
      simp [process_pure, make_row, categorize_total_duration, create_pause_counts_dict]
    | cons k rest =>
      simp only [process_pure]
      cases hsingle : (rest.isEmpty && !isValidKs k) with
      | true =>
        simp only [hsingle, if_true]
        simp [make_row, categorize_total_duration, create_pause_counts_dict]
      | false =>
        simp only [hsingle, Bool.false_eq_true, if_false]
        set st := walkP rid sid (k :: rest) ⟨t0, create_pause_counts_dict, 0, []⟩ with hst
        have hvc : st.valid_keystroke_count = countValid (k :: rest) := by
          rw [hst, walkP_valid_count]; simp
        have hvpos : st.valid_keystroke_count > 0 := by
          rcases hcase with hlen | hval
          · have hre : rest = [] := by
              cases rest with
              | nil => rfl
              | cons x xs => simp at hlen
            subst hre
            have hkval : isValidKs k = true := by
              cases hkv : isValidKs k with
              | false => rw [hkv] at hsingle; simp at hsingle
              | true => rfl
            rw [hvc, countValid_cons, hkval]
            simp
          · rw [hvc]; exact hval
        rw [if_pos hvpos]
        show (categorize_pause st.pause_counts (t1 - st.last_milestone)).total_duration = t1 - t0
        rw [categorize_total_duration]
        have htot := walkP_total_duration rid sid (k :: rest)
          ⟨t0, create_pause_counts_dict, 0, []⟩
        rw [← hst] at htot
        simp only [create_pause_counts_dict] at htot
        omega
  · intro hlen hval row audits heq
    rw [process_record_wf rid sid am t0 t1 ks hwf] at heq
    injection heq with h
    rw [Prod.ext_iff] at h
    have h1 : (process_pure rid sid t0 t1 am ks).1 = row := h.1
    rw [← h1]
    cases ks with
    | nil => simp at hlen
    | cons k rest =>
      have hre2 : rest.isEmpty = false := by
        cases rest with
        | nil => simp at hlen
        | cons x xs => rfl
      simp only [process_pure, hre2, Bool.false_and, Bool.false_eq_true, if_false]
      rw [walkP_all_invalid rid sid (k :: rest)
        ⟨t0, create_pause_counts_dict, 0, []⟩ hval]
      simp [make_row, create_pause_counts_dict]

theorem C1_duration_conservation_witness :
    (⟨"r1", "s1", 900, 2, 500, 1, 0, 0, 1, "450", 900, 900⟩ : SummaryRow).total_duration =
      900 - 0 :=
  (C1_duration_conservation "r1" "s1" "450" 0 900
      [⟨some "", some "", some "a", some "", some "", some "False", some "False",
        some "False", some 400⟩]
      (by decide)).1 (by decide) _ _ rfl

/-- Claim C2 counterexample: for the 100ms record with two invalid
keystrokes (more than one event, none valid) the summary row reports a
keystroke count of 2, the raw event count, not 0 as claimed. -/
theorem C2_counterexample :
    1 < two_invalid_record.keystrokes.length ∧
    countValid two_invalid_record.keystrokes = 0 ∧
    (summary_of two_invalid_record).map SummaryRow.keystrokes = some 2 ∧
    some (2 : Nat) ≠ some (0 : Nat) := by decide

/-- Claim C2 (amended): for every well-formed record with more than one
keystroke all of which are invalid, no trailing gap is computed and no pause
classification occurs (the summary row carries the untouched fresh
accumulator, all buckets and total_duration 0), the audit rows are exactly
one Omitted ks row per event with no trailing row, and the keystroke count
reported in the summary row is the raw event count, not 0. -/
theorem C2_all_invalid (rid sid am : String) (t0 t1 : Int) (ks : List Keystroke)
    (hwf : ∀ k ∈ ks, k.wf = true) (hlen : 1 < ks.length) (hval : countValid ks = 0) :
    process_record ⟨some rid, some sid, some t0, some t1, some am, ks⟩ =
      Except.ok
        (make_row rid sid create_pause_counts_dict ks.length am (t1 - t0),
         ks.map (fun _ => ⟨rid, sid, none, "Omitted ks"⟩)) := by
  rw [process_record_wf rid sid am t0 t1 ks hwf]
  cases ks with
  | nil => simp at hlen
  | cons k rest =>
    have hre2 : rest.isEmpty = false := by
      cases rest with
      | nil => simp at hlen
      | cons x xs => rfl
    simp only [process_pure, hre2, Bool.false_and, Bool.false_eq_true, if_false]
    rw [walkP_all_invalid rid sid (k :: rest)
      ⟨t0, create_pause_counts_dict, 0, []⟩ hval]
    simp

theorem C2_all_invalid_witness :
    process_record two_invalid_record =
      Except.ok
        (⟨"r1", "s1", 0, 0, 0, 0, 0, 0, 2, "5", 100, 0⟩,
         [⟨"r1", "s1", none, "Omitted ks"⟩, ⟨"r1", "s1", none, "Omitted ks"⟩]) :=
  C2_all_invalid "r1" "s1" "5" 0 100 [invalid_ks, invalid_ks]
    (by decide) (by decide) (by decide)

/-- Claim C4: for every well-formed record with N valid and M invalid
keystrokes and N positive, process_record emits exactly M + N + 1 audit rows
(one per omitted event, one per valid-event gap, one trailing); a record
with zero keystrokes emits exactly 1 audit row, and a record with exactly
one keystroke that is invalid emits exactly 1 audit row. -/
theorem C4_audit_completeness (rid sid am : String) (t0 t1 : Int) (ks : List Keystroke)
    (hwf : ∀ k ∈ ks, k.wf = true) :
    (∀ N M, countValid ks = N → ks.length = N + M → 0 < N →
      ∀ row audits,
        process_record ⟨some rid, some sid, some t0, some t1, some am, ks⟩ =
          Except.ok (row, audits) →
        audits.length = M + N + 1) ∧
    (ks = [] →
      ∀ row audits,
        process_record ⟨some rid, some sid, some t0, some t1, some am, ks⟩ =
          Except.ok (row, audits) →
        audits.length = 1) ∧
    (ks.length = 1 → countValid ks = 0 →
      ∀ row audits,
        process_record ⟨some rid, some sid, some t0, some t1, some am, ks⟩ =
          Except.ok (row, audits) →
        audits.length = 1) := by
  refine ⟨?_, ?_, ?_⟩
  · intro N M hN hNM hNpos row audits heq
    rw [process_record_wf rid sid am t0 t1 ks hwf] at heq
    injection heq with h
    rw [Prod.ext_iff] at h
    have h2 : (process_pure rid sid t0 t1 am ks).2 = audits := h.2
    rw [← h2]
    cases ks with
    | nil =>
      rw [countValid_nil] at hN
      omega
    | cons k rest =>
      simp only [process_pure]
      cases hsingle : (rest.isEmpty && !isValidKs k) with
      | true =>
        exfalso
        rw [Bool.and_eq_true] at hsingle
        have hre : rest = [] := List.isEmpty_iff.mp hsingle.1
        have hkv : isValidKs k = false := by
          have := hsingle.2
          cases hkv2 : isValidKs k
          · rfl
          · rw [hkv2] at this; simp at this
        subst hre
        rw [countValid_cons, hkv, countValid_nil] at hN
        simp at hN
        omega
      | false =>
        simp only [hsingle, Bool.false_eq_true, if_false]
        set st := walkP rid sid (k :: rest) ⟨t0, create_pause_counts_dict, 0, []⟩ with hst
        have hvc : st.valid_keystroke_count = countValid (k :: rest) := by
          rw [hst, walkP_valid_count]; simp
        have hvpos : st.valid_keystroke_count > 0 := by rw [hvc, hN]; exact hNpos
        rw [if_pos hvpos]
        show (st.audit ++ [AuditRow.mk rid sid (some (t1 - st.last_milestone)) ""]).length =
          M + N + 1
        rw [List.length_append]
        have hlen : st.audit.length = (k :: rest).length := by
          rw [hst, walkP_audit_length]; simp
        rw [hlen]
        simp only [List.length_singleton]
        omega
  · intro hnil row audits heq
    subst hnil
    rw [process_record_wf rid sid am t0 t1 [] hwf] at heq
    injection heq with h
    rw [Prod.ext_iff] at h
    have h2 : (process_pure rid sid t0 t1 am []).2 = audits := h.2
    rw [← h2]
    rfl
  · intro hlen hval row audits heq
    rw [process_record_wf rid sid am t0 t1 ks hwf] at heq
    injection heq with h
    rw [Prod.ext_iff] at h
    have h2 : (process_pure rid sid t0 t1 am ks).2 = audits := h.2
    rw [← h2]
    cases ks with
    | nil => simp at hlen
    | cons k rest =>
      have hre : rest = [] := by
        cases rest with
        | nil => rfl
        | cons x xs => simp at hlen
      subst hre
      have hkv : isValidKs k = false := by
        rw [countValid_cons, countValid_nil] at hval
        cases hkv2 : isValidKs k
        · rfl
        · rw [hkv2] at hval; simp at hval
      simp only [process_pure, List.isEmpty_nil, hkv, Bool.not_false, Bool.true_and, if_true]
      rfl

theorem C4_audit_completeness_witness :
    ([⟨"r1", "s1", none, "Omitted ks"⟩, ⟨"r1", "s1", some 400, ""⟩,
      ⟨"r1", "s1", some 500, ""⟩] : List AuditRow).length = 1 + 1 + 1 ∧
    ([⟨"r1", "s1", some 1200, "No ks"⟩] : List AuditRow).length = 1 ∧
    ([⟨"r1", "s1", some 100, "1 system ks omitted"⟩] : List AuditRow).length = 1 :=
  ⟨(C4_audit_completeness "r1" "s1" "9" 0 900
      [invalid_ks,
       ⟨some "", some "", some "a", some "", some "", some "False", some "False",
        some "False", some 400⟩]
      (by decide)).1 1 1 (by decide) (by decide) (by decide) _ _ rfl,
   (C4_audit_completeness "r1" "s1" "9" 0 1200 [] (by decide)).2.1 rfl _ _ rfl,
   (C4_audit_completeness "r1" "s1" "9" 0 100 [invalid_ks] (by decide)).2.2 rfl
     (by decide) _ _ rfl⟩

/-- A keystroke element lacking six of its nine attributes.  Its origin is
present and empty, so the first condition of valid_keystroke short-circuits
without reading system or key, and its non-empty selection short-circuits
the elif without reading text, key, shift, ctrl or alt. -/
def sparse_ks : Keystroke :=
  ⟨some "", none, none, some "x", none, none, none, none, some 400⟩

/-- A record whose single keystroke is sparse_ks. -/
def sparse_record : Record :=
  ⟨some "r1", some "s1", some 0, some 900, some "5", [sparse_ks]⟩

/-- Claim C7 counterexample: an event lacking the required attributes
system, key, text, shift, ctrl and alt is processed without any error
because short-circuit evaluation never reads them; the record completes
normally instead of raising. -/
theorem C7_counterexample :
    sparse_ks.system = none ∧ sparse_ks.key = none ∧ sparse_ks.text = none ∧
    sparse_ks.shift = none ∧ sparse_ks.ctrl = none ∧ sparse_ks.alt = none ∧
    isOkB (process_record sparse_record) = true := by decide

lemma valid_keystroke_origin_none (k : Keystroke) (h : k.origin = none) :
    valid_keystroke k = Except.error "origin" := by
  simp [valid_keystroke, h, attrib, Bind.bind, Except.bind]

lemma walk_error_of_origin_none (rid sid : String) (ks : List Keystroke) (st : WalkSt)
    (h : ∃ k ∈ ks, k.origin = none) :
    isOkB (walk rid sid ks st) = false := by
  induction ks generalizing st with
  | nil => simp at h
  | cons k rest ih =>
    rcases h with ⟨x, hx, hox⟩
    rcases List.mem_cons.mp hx with hxk | hx2
    · subst hxk
      simp [walk, valid_keystroke_origin_none x hox, Bind.bind, Except.bind, isOkB]
    · cases hv : valid_keystroke k with
      | error e => simp [walk, hv, Bind.bind, Except.bind, isOkB]
      | ok b =>
        cases b with
        | false =>
          simp only [walk, hv, Bind.bind, Except.bind, Bool.false_eq_true, if_false]
          exact ih _ ⟨x, hx2, hox⟩
        | true =>
          cases hc : k.created with
          | none =>
            simp [walk, hv, hc, attribInt, Bind.bind, Except.bind, isOkB]
          | some c =>
            simp only [walk, hv, hc, attribInt, Bind.bind, Except.bind, if_true]
            exact ih _ ⟨x, hx2, hox⟩

/-- Claim C7 (amended): processing fails with a propagated error exactly
when a missing attribute is actually read: a record lacking any of its five
required attributes always errors, and a record one of whose events lacks
the origin attribute always errors (no summary row is emitted in either
case); an event attribute that short-circuit evaluation never reads may be
absent without error. -/
theorem C7_missing_attribute_fails (r : Record)
    (h : r.id = none ∨ r.segmentid = none ∨ r.started = none ∨ r.stopped = none ∨
      r.activemiliseconds = none ∨ ∃ k ∈ r.keystrokes, k.origin = none) :
    isOkB (process_record r) = false := by
  obtain ⟨rId, rSeg, rStart, rStop, rAct, ks⟩ := r
  simp only at h
  cases rStart with
  | none => simp [process_record, attribInt, Bind.bind, Except.bind, isOkB]
  | some t0 =>
  cases rStop with
  | none => simp [process_record, attribInt, attrib, Bind.bind, Except.bind, isOkB]
  | some t1 =>
  cases rId with
  | none => simp [process_record, attribInt, attrib, Bind.bind, Except.bind, isOkB]
  | some rid =>
  cases rSeg with
  | none => simp [process_record, attribInt, attrib, Bind.bind, Except.bind, isOkB]
  | some sid =>
  cases rAct with
  | none => simp [process_record, attribInt, attrib, Bind.bind, Except.bind, isOkB]
  | some am =>
  simp only [reduceCtorEq, false_or] at h
  cases ks with
  | nil =>
    rcases h with ⟨x, hx, _⟩
    simp at hx
  | cons k rest =>
    rcases h with ⟨x, hx, hox⟩
    simp only [process_record, attrib, attribInt, Bind.bind, Except.bind]
    cases hre : rest.isEmpty with
    | true =>
      have hrnil : rest = [] := List.isEmpty_iff.mp hre
      subst hrnil
      have hxk : x = k := by
        rcases List.mem_cons.mp hx with h1 | h1
        · exact h1
        · simp at h1
      subst hxk
      simp [hre, valid_keystroke_origin_none x hox, Bind.bind, Except.bind, isOkB]
    | false =>
      have hwerr := walk_error_of_origin_none rid sid (k :: rest)
        ⟨t0, create_pause_counts_dict, 0, []⟩ ⟨x, hx, hox⟩
      cases hw : walk rid sid (k :: rest)
          ⟨t0, create_pause_counts_dict, 0, []⟩ with
      | error e =>
        simp [hre, hw, Bind.bind, Except.bind, isOkB, pure, Except.pure]
      | ok st =>
        rw [hw] at hwerr
        simp [isOkB] at hwerr


theorem C7_missing_attribute_fails_witness :
    isOkB (process_record ⟨some "r1", some "s1", none, some 100, some "5", []⟩) = false :=
  C7_missing_attribute_fails ⟨some "r1", some "s1", none, some 100, some "5", []⟩
    (Or.inr (Or.inr (Or.inl rfl)))
